import Mathlib

/-!
Verification development for the CRDS constraint-validation engine.

The repository ships `crds/matches.py` (embedded directly below as
`lookupKey` / `get_exptime`) and the certify test suite
`crds/tests/test_certify.py`.  The certify engine itself
(`crds/certify.py` and its validators) is not part of the shipped
sources, so its data model and operations are modelled from the
specification document, keeping the behaviours that the shipped test
suite pins down (presence codes, conditional requiredness, the
pedigree/date grammars, the OR-bar value rule, the table-mode
comparison, mapping duplicate/checksum certification, and the
fitsverify transcript recategorization).
-/

-- ==========================================================================
-- Severity ledger and diagnostics
-- ==========================================================================

/-- Modelled from the spec: the three severity levels of the engine (section 6,
diagnostic lines are tagged ERROR / WARNING / INFO). -/
inductive Severity
  | info
  | warning
  | error
deriving DecidableEq, Repr

/-- One diagnostic line: a severity tag plus the message text. -/
structure Diag where
  sev : Severity
  msg : String
deriving DecidableEq, Repr

/-- Number of ERROR-severity diagnostics in a ledger slice (the error count of a run; warnings and infos never affect it, spec section 7). -/
def errorCount (ds : List Diag) : Nat :=
  (ds.filter (fun d => decide (d.sev = Severity.error))).length

/-- Modelled from the spec: the error taxonomy of section 7 (construction
time syntax failures are a distinct class from check-time errors). -/
inductive CertifyError
  | missingKeyword
  | illegalKeyword
  | badFormat
  | requiredCondition
  | duplicateEntry
  | syntaxErr
  | valueError (msg : String)
deriving DecidableEq, Repr

-- ==========================================================================
-- Small string utilities shared by the models
-- ==========================================================================

/-- Does the pattern match at the head of the character list? -/
def matchesAt : List Char → List Char → Bool
  | [], _ => true
  | _ :: _, [] => false
  | p :: ps, c :: cs => p = c && matchesAt ps cs

/-- Does the pattern occur anywhere in the character list? -/
def hasSubAux (pat : List Char) : List Char → Bool
  | [] => pat.isEmpty
  | c :: cs => matchesAt pat (c :: cs) || hasSubAux pat cs

/-- Python-style substring containment test: `pat in s`. -/
def strHasSub (pat s : String) : Bool :=
  hasSubAux pat.toList s.toList

/-- Split a character list at a separator character, accumulating the
current field in reverse. -/
def splitTokensAux (sep : Char) : List Char → List Char → List String
  | acc, [] => [String.mk acc.reverse]
  | acc, c :: rest =>
    if c = sep then String.mk acc.reverse :: splitTokensAux sep [] rest
    else splitTokensAux sep (c :: acc) rest

/-- Split a string at every occurrence of a separator character
(Python `str.split(sep)`: empty fields are kept). -/
def splitTokens (sep : Char) (s : String) : List String :=
  splitTokensAux sep [] s.toList

/-- Whitespace tokenization (Python `str.split()` with no argument:
empty fields are dropped). -/
def spaceTokens (s : String) : List String :=
  (splitTokens ' ' s).filter (fun t => !t.isEmpty)

-- ==========================================================================
-- Headers and the boolean-expression evaluator (spec section 4.1)
-- ==========================================================================

/-- A normalized header: mapping of keyword name to string value,
represented as an association list (first binding wins). -/
abbrev Header := List (String × String)

/-- Header keyword access with the CRDS sentinel for absent keywords. -/
def headerGet (h : Header) (k : String) : String :=
  match h.find? (fun p => decide (p.1 = k)) with
  | some p => p.2
  | none => "UNDEFINED"

/-- Modelled from the spec: value-level expressions of the restricted
boolean-expression language (string literals and header identifiers). -/
inductive VExpr
  | lit (s : String)
  | keyword (k : String)
deriving DecidableEq, Repr

/-- Modelled from the spec: the restricted boolean-expression language of
section 4.1 — equality, inequality, membership (string containment and
list membership) and the boolean connectives. -/
inductive BExpr
  | trueE
  | eqE (a b : VExpr)
  | neE (a b : VExpr)
  | inSub (a b : VExpr)
  | inListE (a : VExpr) (l : List String)
  | andE (a b : BExpr)
  | orE (a b : BExpr)
  | notE (a : BExpr)
deriving DecidableEq, Repr

/-- Evaluate a value expression against a header (identifier lookup
substitutes the header value, UNDEFINED when absent). -/
def evalV (h : Header) : VExpr → String
  | VExpr.lit s => s
  | VExpr.keyword k => headerGet h k

/-- Evaluate a boolean expression against a header.  `inSub` is the
Python string-containment reading of `a in b`. -/
def evalB (h : Header) : BExpr → Bool
  | BExpr.trueE => true
  | BExpr.eqE a b => decide (evalV h a = evalV h b)
  | BExpr.neE a b => !decide (evalV h a = evalV h b)
  | BExpr.inSub a b => strHasSub (evalV h a) (evalV h b)
  | BExpr.inListE a l => l.contains (evalV h a)
  | BExpr.andE a b => evalB h a && evalB h b
  | BExpr.orE a b => evalB h a || evalB h b
  | BExpr.notE a => !evalB h a

-- ==========================================================================
-- Conditional requiredness (spec section 4.3)
-- ==========================================================================

/-- Modelled from the spec: the optional softening wrapper around a
boolean-expression presence — plain, `warning(...)`, or `optional(...)`. -/
inductive PresenceWrap
  | plainW
  | warningW
  | optionalW
deriving DecidableEq, Repr

/-- A boolean-expression presence: the wrapping plus the wrapped
condition expression. -/
structure CondPresence where
  wrap : PresenceWrap
  expr : BExpr
deriving DecidableEq, Repr

/-- Modelled from the spec: the four-valued applicability result of
`is_applicable(header)` — required (Python True), warn (W), optional (O), or not applicable (Python False). -/
inductive Applicability
  | appTrue
  | appW
  | appO
  | appFalse
deriving DecidableEq, Repr

/-- Modelled from the spec: `is_applicable(header)` for a validator with a
boolean-expression presence.  Expression true and unwrapped gives
required; wrapped in warning(...) and true gives warn; wrapped in
optional(...) and true gives optional; false gives not-applicable. -/
def is_applicable (c : CondPresence) (h : Header) : Applicability :=
  if evalB h c.expr then
    match c.wrap with
    | PresenceWrap.plainW => Applicability.appTrue
    | PresenceWrap.warningW => Applicability.appW
    | PresenceWrap.optionalW => Applicability.appO
  else Applicability.appFalse

/-- Modelled from the spec: the presence of a constraint — a fixed code
Required / Optional / Warn / IfFullFrame / IfSubarray / AnySubarray /
Excluded, or a boolean-expression condition. -/
inductive Presence
  | requiredP
  | optionalP
  | warnP
  | ifFullFrameP
  | ifSubarrayP
  | anySubarrayP
  | excludedP
  | condP (c : CondPresence)
deriving DecidableEq, Repr

/-- Modelled from the spec: `handle_missing(header)` — for presence codes
Warn / AnySubarray / IfFullFrame / IfSubarray, or conditional
applicability warn / optional / false, return the sentinel UNDEFINED
value without failing; for Required or conditional applicability true,
fail with the distinguished missing-keyword error. -/
def handle_missing (p : Presence) (h : Header) : Except CertifyError String :=
  match p with
  | Presence.requiredP => Except.error CertifyError.missingKeyword
  | Presence.condP c =>
    match is_applicable c h with
    | Applicability.appTrue => Except.error CertifyError.missingKeyword
    | _ => Except.ok "UNDEFINED"
  | _ => Except.ok "UNDEFINED"

-- ==========================================================================
-- Construction-time syntax screening (spec sections 4.1, 4.3, 8)
-- ==========================================================================

/-- Scan for a lone `=` (assignment where `==` was intended): an equals
sign that does not pair into `==` and is not the tail of `!=`, `<=` or
`>=`.  The first argument carries the previously seen character. -/
def loneEqAux : Option Char → List Char → Bool
  | _, [] => false
  | _, '=' :: '=' :: rest => loneEqAux (some '=') rest
  | prev, '=' :: rest =>
    if prev = some '!' || prev = some '<' || prev = some '>' then
      loneEqAux (some '=') rest
    else true
  | _, c :: rest => loneEqAux (some c) rest

/-- Does the expression text contain a lone `=` (the malformation the
spec names for construction-time syntax failure)? -/
def hasLoneEq (s : String) : Bool :=
  loneEqAux none s.toList

/-- Is the presence field an expression (condition) rather than a fixed
presence code?  Conditions are parenthesised in the constraint files. -/
def isExprText (s : String) : Bool :=
  match s.toList with
  | '(' :: _ => true
  | _ => false

/-- The fixed presence codes of the constraint language. -/
def presenceCodes : List String := ["R", "P", "O", "W", "F", "S", "A", "E"]

/-- A declarative constraint record as the certify tests build it:
name, keytype code, datatype code, presence (code or condition text)
and the allowed-value strings. -/
structure TpnInfo where
  name : String
  keytype : String
  datatype : String
  presence : String
  values : List String
deriving DecidableEq, Repr

/-- Modelled from the spec: the datatype-dependent part of validator
construction — for the Expression datatype the single value expression
is compiled, failing with a syntax error when malformed. -/
def checkValues (info : TpnInfo) : Except CertifyError TpnInfo :=
  if info.datatype = "X" then
    match info.values with
    | [e] =>
      if hasLoneEq e then Except.error CertifyError.syntaxErr
      else Except.ok info
    | _ => Except.error (CertifyError.valueError "bad expression values")
  else Except.ok info

/-- Modelled from the spec: `make_validator` / `certify.validator` —
validator construction takes no header and fails immediately, with a
syntax error, on a malformed presence condition or value expression
(so `check` is never reached for such a spec). -/
def validator (info : TpnInfo) : Except CertifyError TpnInfo :=
  if isExprText info.presence then
    if hasLoneEq info.presence then Except.error CertifyError.syntaxErr
    else checkValues info
  else if presenceCodes.contains info.presence then checkValues info
  else Except.error (CertifyError.valueError "bad presence")

-- ==========================================================================
-- Character validator (spec section 4.3, OR-bar rule)
-- ==========================================================================

/-- Modelled from the spec: the Character validator value test — the
header value is split on the OR bar and every resulting token must be
one of the allowed values. -/
def characterCheck (allowed : List String) (value : String) : Bool :=
  (splitTokens '|' value).all (fun tok => allowed.contains tok)

/-- Character check as a fallible operation: failure carries the
"is not one of" value error. -/
def characterCheckE (allowed : List String) (value : String) :
    Except CertifyError Unit :=
  if characterCheck allowed value then Except.ok ()
  else Except.error (CertifyError.valueError "is not one of")

-- ==========================================================================
-- Pedigree dates (spec section 4.3, testable properties section 8)
-- ==========================================================================

/-- A calendar date as year, month, day. -/
structure PDate where
  y : Nat
  m : Nat
  d : Nat
deriving DecidableEq, Repr

/-- Is the character an ASCII digit? -/
def isDigitChar (c : Char) : Bool :=
  decide ('0' ≤ c) && decide (c ≤ '9')

/-- Numeric value of a digit list. -/
def digitsVal (cs : List Char) : Nat :=
  cs.foldl (fun a c => a * 10 + (c.toNat - 48)) 0

/-- Parse a string as exactly `len` digits. -/
def fixedNum (len : Nat) (s : String) : Option Nat :=
  let cs := s.toList
  if cs.length = len && cs.all isDigitChar then some (digitsVal cs) else none

/-- Modelled from the spec: the slash date grammar dd/mm/yyyy with
calendar-range checks on day and month. -/
def parseSlashDate (s : String) : Option PDate :=
  match splitTokens '/' s with
  | [ds, ms, ys] =>
    match fixedNum 2 ds, fixedNum 2 ms, fixedNum 4 ys with
    | some dv, some mv, some yv =>
      if 1 ≤ dv && dv ≤ 31 && 1 ≤ mv && mv ≤ 12 then some ⟨yv, mv, dv⟩
      else none
    | _, _, _ => none
  | _ => none

/-- Modelled from the spec: the dash date grammar yyyy-mm-dd with
calendar-range checks on day and month (ISO-with-time is rejected
because the day field is not two bare digits). -/
def parseDashDate (s : String) : Option PDate :=
  match splitTokens '-' s with
  | [ys, ms, ds] =>
    match fixedNum 4 ys, fixedNum 2 ms, fixedNum 2 ds with
    | some yv, some mv, some dv =>
      if 1 ≤ dv && dv ≤ 31 && 1 ≤ mv && mv ≤ 12 then some ⟨yv, mv, dv⟩
      else none
    | _, _, _ => none
  | _ => none

/-- Chronological order on dates. -/
def dateLE (a b : PDate) : Bool :=
  decide (a.y < b.y) ||
    (decide (a.y = b.y) &&
      (decide (a.m < b.m) || (decide (a.m = b.m) && decide (a.d ≤ b.d))))

/-- Modelled from the spec: a start/end pair is accepted when both dates
parse in the same format (both slash or both dash) and start is not
after end; mixing the two formats is rejected. -/
def sameFormatLE (s e : String) : Bool :=
  (match parseSlashDate s, parseSlashDate e with
   | some d1, some d2 => dateLE d1 d2
   | _, _ => false) ||
  (match parseDashDate s, parseDashDate e with
   | some d1, some d2 => dateLE d1 d2
   | _, _ => false)

/-- The pedigree origin keywords. -/
def pedigreeKeywords : List String := ["DUMMY", "GROUND", "SIMULATION", "INFLIGHT"]

/-- Modelled from the spec: the Pedigree value grammar over whitespace
tokens — a bare keyword, or a keyword plus two dates with an optional
literal dash separator token; anything else (extra trailing tokens
included) fails. -/
def pedigreeCheckTokens : List String → Bool
  | [kw] => pedigreeKeywords.contains kw
  | [kw, s, e] => pedigreeKeywords.contains kw && sameFormatLE s e
  | [kw, s, dash, e] =>
    pedigreeKeywords.contains kw && decide (dash = "-") && sameFormatLE s e
  | _ => false

/-- Modelled from the spec: the Pedigree validator check on the raw
header value. -/
def pedigreeCheck (value : String) : Bool :=
  pedigreeCheckTokens (spaceTokens value)

-- ==========================================================================
-- Table-mode comparison (spec section 4.4)
-- ==========================================================================

/-- A Mode: the ordered (column, value) pairs identifying one
calibration case within a table extension. -/
abbrev Mode := List (String × String)

/-- Row indices (from `start`) at which a mode occurs in the per-row
mode list of one extension. -/
def modeIndicesFrom (start : Nat) : List Mode → Mode → List Nat
  | [], _ => []
  | x :: rest, m =>
    if x = m then start :: modeIndicesFrom (start + 1) rest m
    else modeIndicesFrom (start + 1) rest m

/-- The duplicate-definition entry for one mode: present exactly when
the mode occurs at two or more row indices, and carrying all of them. -/
def dupEntry (modes : List Mode) (m : Mode) : Option (Mode × List Nat) :=
  let idxs := modeIndicesFrom 0 modes m
  if 2 ≤ idxs.length then some (m, idxs) else none

/-- Modelled from the spec: duplicate-mode findings of one extension —
one entry per distinct duplicated mode, naming every row index that
defines it. -/
def duplicateWarnings (modes : List Mode) : List (Mode × List Nat) :=
  modes.dedup.filterMap (dupEntry modes)

/-- Modelled from the spec: dropped-mode findings — each distinct mode of
the old extension that is absent from the new extension.  Modes newly
introduced in the new file are never reported. -/
def droppedModes (oldModes newModes : List Mode) : List Mode :=
  oldModes.dedup.filter (fun m => decide (m ∉ newModes))

/-- The structured result of comparing one table extension of the old
and new reference files. -/
structure TableDiff where
  dups : List (Mode × List Nat)
  dropped : List Mode
deriving DecidableEq, Repr

/-- Modelled from the spec: the table-mode comparison of one extension;
duplicates are computed from the old file alone. -/
def tableCompare (oldModes newModes : List Mode) : TableDiff :=
  ⟨duplicateWarnings oldModes, droppedModes oldModes newModes⟩

/-- Render a mode for a diagnostic message. -/
def modeText (m : Mode) : String :=
  String.intercalate " " (m.map (fun p => p.1 ++ "=" ++ p.2))

/-- Modelled from the spec: the diagnostics of the table-mode
comparison — every finding is reported as a warning, never an error. -/
def tableCompareDiags (oldName : String) (ext : Nat)
    (oldModes newModes : List Mode) : List Diag :=
  (tableCompare oldModes newModes).dups.map
    (fun p =>
      ⟨Severity.warning,
        "Duplicate definitions in old reference " ++ oldName ++ "[" ++
          toString ext ++ "] for mode: " ++ modeText p.1⟩) ++
  (tableCompare oldModes newModes).dropped.map
    (fun m =>
      ⟨Severity.warning,
        "Table mode " ++ modeText m ++ " from old reference " ++ oldName ++
          "[" ++ toString ext ++ "] is NOT IN new reference"⟩)

/-- Modelled from the spec: the comparison entry point — when no
comparison file or context is available the whole comparison is skipped
with exactly one warning note, which is not an error condition. -/
def certifyTables (oldName : String) (ext : Nat)
    (comparison : Option (List Mode)) (newModes : List Mode) : List Diag :=
  match comparison with
  | none =>
    [⟨Severity.warning,
      "No comparison reference in context None. Skipping tables comparison."⟩]
  | some oldModes => tableCompareDiags oldName ext oldModes newModes

-- ==========================================================================
-- Structural/checksum certifier for rule files (spec section 4.5)
-- ==========================================================================

/-- A selector key of a rule-file entry (the parameter tuple). -/
abbrev Selector := List String

/-- One selector-key to result entry of a rule file. -/
structure MapEntry where
  key : Selector
  kind : String
deriving DecidableEq, Repr

/-- One hierarchical rule file: its entries in declaration order plus the
optional embedded content checksum. -/
structure MappingNode where
  entries : List MapEntry
  storedSum : Option Nat
deriving DecidableEq, Repr

/-- A simple content hash of a string (stands in for the sha1 content
checksum; the spec leaves the exact normalization open). -/
def strHash (s : String) : Nat :=
  s.toList.foldl (fun a c => a * 31 + c.toNat) 7

/-- Content hash of one entry. -/
def entryHash (e : MapEntry) : Nat :=
  strHash (String.intercalate "," e.key) * 131 + strHash e.kind

/-- Modelled from the spec: the recomputed checksum over the normalized content of the node. -/
def mappingChecksum (entries : List MapEntry) : Nat :=
  entries.foldl (fun a e => a * 1009 + entryHash e) 0

/-- The result kind under which a selector key was first seen, if any. -/
def findKind (seen : List MapEntry) (k : Selector) : Option String :=
  (seen.find? (fun e => decide (e.key = k))).map (fun e => e.kind)

/-- Scan the entries in declaration order; a second definition under an
identical selector key is one error naming both conflicting result
kinds. -/
def dupErrAux (seen : List MapEntry) : List MapEntry → List Diag
  | [] => []
  | e :: rest =>
    match findKind seen e.key with
    | some k0 =>
      ⟨Severity.error,
        "Duplicate entry at selector " ++ String.intercalate " " e.key ++
          " = " ++ k0 ++ " vs. " ++ e.kind⟩ :: dupErrAux (e :: seen) rest
    | none => dupErrAux (e :: seen) rest

/-- Modelled from the spec: duplicate selector-key errors of one node. -/
def duplicateErrors (entries : List MapEntry) : List Diag :=
  dupErrAux [] entries

/-- Modelled from the spec: per-node structural certification — duplicate
selector keys are errors; an embedded checksum that does not match the
recomputed one is a warning (not fatal), and it never suppresses the
duplicate errors. -/
def certifyMapping (node : MappingNode) : List Diag :=
  duplicateErrors node.entries ++
    (match node.storedSum with
     | none => []
     | some s =>
       if s = mappingChecksum node.entries then []
       else [⟨Severity.warning, "Checksum error : sha1sum mismatch"⟩])

-- ==========================================================================
-- Fitsverify output interpreter (spec section 4.6)
-- ==========================================================================

/-- One recategorization rule: transcript lines containing the substring
get the target severity, independent of the label given by the tool. -/
structure RecatRule where
  pat : String
  target : Severity
deriving DecidableEq, Repr

/-- The line-level label given by the tool itself: its error lines, its warning lines,
everything else informational. -/
def baseSeverity (line : String) : Severity :=
  if strHasSub "Error" line then Severity.error
  else if strHasSub "Warning" line then Severity.warning
  else Severity.info

/-- Modelled from the spec: the effective severity of one transcript
line — the first matching recategorization rule wins, otherwise the
label given by the tool stands. -/
def recatSeverity (policy : List RecatRule) (line : String) : Severity :=
  match policy.find? (fun r => strHasSub r.pat line) with
  | some r => r.target
  | none => baseSeverity line

/-- Modelled from the spec: the final pass/fail of the conformance step
is computed from the recategorized severities alone (the exit code of
the tool is not consulted). -/
def fvStepFails (policy : List RecatRule) (lines : List String) : Bool :=
  lines.any (fun l => decide (recatSeverity policy l = Severity.error))

/-- The verdict diagnostic emitted when recategorized severities contain
an error. -/
def fvVerdictDiag : Diag :=
  ⟨Severity.error,
    "Fitsverify output contains errors or warnings CRDS recategorizes as ERRORs."⟩

/-- The informational note about the nonzero exit status of the tool. -/
def fvStatusDiag : Diag :=
  ⟨Severity.info, "Fitsverify returned a NONZERO COMMAND LINE ERROR STATUS."⟩

/-- Modelled from the spec: `interpret_fitsverify_output` — every
transcript line is echoed (with its recategorized severity), the
nonzero exit status yields only an informational note, and the error
verdict is appended exactly when the recategorized severities fail the
step. -/
def interpret_fitsverify_output (policy : List RecatRule) (status : Nat)
    (lines : List String) : List Diag :=
  lines.map (fun l => ⟨recatSeverity policy l, ">> " ++ l⟩) ++
    (if status ≠ 0 then [fvStatusDiag] else []) ++
    (if fvStepFails policy lines then [fvVerdictDiag] else [])

/-- The JWST-profile recategorization table exercised by the shipped
tests: checksum/datasum mismatch warnings escalate to errors, the
unregistered-extension error demotes to informational. -/
def fitsverifyPolicy : List RecatRule :=
  [⟨"Data checksum is not consistent", Severity.error⟩,
   ⟨"HDU checksum is not in agreement", Severity.error⟩,
   ⟨"Unregistered XTENSION", Severity.info⟩]

/-- The escalated transcript line of the shipped bad-checksum test. -/
def escLine : String :=
  "*** Warning: Data checksum is not consistent with  the DATASUM keyword"

/-- The demoted transcript line of the shipped interpret test. -/
def demLine : String :=
  "*** Error:   Unregistered XTENSION value ASDF."

/-- The duplicated rule-file entry of the shipped duplicate-rmap test:
selector (FUV, SPECTROSCOPIC) mapping to a UseAfter sub-selector. -/
def tdsEntry : MapEntry := ⟨["FUV", "SPECTROSCOPIC"], "UseAfter"⟩

/-- A rule file with the selector key defined twice and a stale embedded
checksum (the stored sum 0 never matches the recomputed content sum). -/
def tdsNode : MappingNode := ⟨[tdsEntry, tdsEntry], some 0⟩

-- ==========================================================================
-- crds/matches.py : get_exptime
-- ==========================================================================

/-- Dictionary membership/lookup for a match-parameter dictionary. -/
def lookupKey (m : List (String × String)) (k : String) : Option String :=
  match m.find? (fun p => decide (p.1 = k)) with
  | some p => some p.2
  | none => none

/-- `crds.matches.get_exptime`: the EXPTIME for one match path, or
1900-01-01 00:00:00 when none can be derived. -/
def get_exptime (match_dict : List (String × String)) : String :=
  match lookupKey match_dict "DATE-OBS", lookupKey match_dict "TIME-OBS" with
  | some d, some t => d ++ " " ++ t
  | _, _ =>
    match lookupKey match_dict "META.OBSERVATION.DATE" with
    | some v => v
    | none =>
      match lookupKey match_dict "META_OBSERVATION_DATE" with
      | some v => v
      | none => "1900-01-01 00:00:00"

-- ==========================================================================
-- Theorems
-- ==========================================================================

/-- C2: for every validator built from a boolean-expression presence and
every header, `is_applicable` returns exactly one of required / warn /
optional / false — required when the expression is true and unwrapped,
warn when wrapped in warning(...) and true, optional when wrapped in
optional(...) and true, and false when the expression is false under
either wrapping. -/
theorem is_applicable_partition (c : CondPresence) (h : Header) :
    (is_applicable c h = Applicability.appTrue ↔
      (evalB h c.expr = true ∧ c.wrap = PresenceWrap.plainW)) ∧
    (is_applicable c h = Applicability.appW ↔
      (evalB h c.expr = true ∧ c.wrap = PresenceWrap.warningW)) ∧
    (is_applicable c h = Applicability.appO ↔
      (evalB h c.expr = true ∧ c.wrap = PresenceWrap.optionalW)) ∧
    (is_applicable c h = Applicability.appFalse ↔ evalB h c.expr = false) := by
  obtain ⟨w, e⟩ := c
  cases hb : evalB h e <;> cases w <;> simp [is_applicable, hb]

/-- C1: `handle_missing` fails with the missing-keyword error exactly for
presence Required and for conditional presences whose applicability is
required; for the Warn / AnySubarray / IfFullFrame / IfSubarray codes and
for conditional applicability warn / optional / false it returns the
sentinel UNDEFINED without failing. -/
theorem handle_missing_spec (h : Header) :
    handle_missing Presence.requiredP h = Except.error CertifyError.missingKeyword ∧
    handle_missing Presence.warnP h = Except.ok "UNDEFINED" ∧
    handle_missing Presence.anySubarrayP h = Except.ok "UNDEFINED" ∧
    handle_missing Presence.ifFullFrameP h = Except.ok "UNDEFINED" ∧
    handle_missing Presence.ifSubarrayP h = Except.ok "UNDEFINED" ∧
    (∀ c : CondPresence, is_applicable c h = Applicability.appTrue →
      handle_missing (Presence.condP c) h = Except.error CertifyError.missingKeyword) ∧
    (∀ c : CondPresence,
      is_applicable c h = Applicability.appW ∨ is_applicable c h = Applicability.appO ∨
        is_applicable c h = Applicability.appFalse →
      handle_missing (Presence.condP c) h = Except.ok "UNDEFINED") := by
  refine ⟨rfl, rfl, rfl, rfl, rfl, ?_, ?_⟩
  · intro c hc
    simp [handle_missing, hc]
  · intro c hc
    rcases hc with hc | hc | hc <;> simp [handle_missing, hc]

/-- C1 witness: the conditional presence (READPATT == FOO) of the shipped
handle-missing test, evaluated on the applicable and the inapplicable
header. -/
theorem handle_missing_spec_witness :
    is_applicable ⟨PresenceWrap.plainW,
        BExpr.eqE (VExpr.keyword "READPATT") (VExpr.lit "FOO")⟩
        [("READPATT", "FOO")] = Applicability.appTrue ∧
    handle_missing (Presence.condP ⟨PresenceWrap.plainW,
        BExpr.eqE (VExpr.keyword "READPATT") (VExpr.lit "FOO")⟩)
        [("READPATT", "FOO")] = Except.error CertifyError.missingKeyword ∧
    is_applicable ⟨PresenceWrap.plainW,
        BExpr.eqE (VExpr.keyword "READPATT") (VExpr.lit "FOO")⟩
        [("READPATT", "BAR")] = Applicability.appFalse ∧
    handle_missing (Presence.condP ⟨PresenceWrap.plainW,
        BExpr.eqE (VExpr.keyword "READPATT") (VExpr.lit "FOO")⟩)
        [("READPATT", "BAR")] = Except.ok "UNDEFINED" :=
  ⟨by decide,
   (handle_missing_spec _).2.2.2.2.2.1 _ (by decide),
   by decide,
   (handle_missing_spec _).2.2.2.2.2.2 _ (Or.inr (Or.inr (by decide)))⟩

/-- C5: the Character validator splits the header value on the OR bar and
passes exactly when every token is allowed; DETECTOR THAT|THIS passes
against allowed THIS/THAT/OTHER and fails with the is-not-one-of error
against allowed THAT/OTHER. -/
theorem character_or_bar_spec :
    characterCheckE ["THIS", "THAT", "OTHER"] "THAT|THIS" = Except.ok () ∧
    characterCheckE ["THAT", "OTHER"] "THAT|THIS" =
      Except.error (CertifyError.valueError "is not one of") ∧
    (∀ (allowed : List String) (value : String),
      characterCheck allowed value = true ↔
        ∀ tok ∈ splitTokens '|' value, allowed.contains tok = true) := by
  refine ⟨rfl, rfl, ?_⟩
  intro allowed value
  exact List.all_eq_true

/-- C8: with no comparison file or context available, the table comparison
is skipped with exactly one warning note and the error count is not
incremented. -/
theorem comparison_skip_single_note (oldName : String) (ext : Nat)
    (newModes : List Mode) :
    certifyTables oldName ext none newModes =
      [⟨Severity.warning,
        "No comparison reference in context None. Skipping tables comparison."⟩] ∧
    (certifyTables oldName ext none newModes).length = 1 ∧
    errorCount (certifyTables oldName ext none newModes) = 0 :=
  ⟨rfl, rfl, rfl⟩

/-- C10: `get_exptime` concatenates DATE-OBS, a space and TIME-OBS when
both are present, otherwise falls back to META.OBSERVATION.DATE, then
META_OBSERVATION_DATE, then the fixed 1900-01-01 00:00:00 sentinel, so it
never fails. -/
theorem get_exptime_spec (m : List (String × String)) :
    (∀ d t, lookupKey m "DATE-OBS" = some d → lookupKey m "TIME-OBS" = some t →
      get_exptime m = d ++ " " ++ t) ∧
    ((lookupKey m "DATE-OBS" = none ∨ lookupKey m "TIME-OBS" = none) →
      (∀ v, lookupKey m "META.OBSERVATION.DATE" = some v → get_exptime m = v) ∧
      (lookupKey m "META.OBSERVATION.DATE" = none →
        (∀ v, lookupKey m "META_OBSERVATION_DATE" = some v → get_exptime m = v) ∧
        (lookupKey m "META_OBSERVATION_DATE" = none →
          get_exptime m = "1900-01-01 00:00:00"))) := by
  constructor
  · intro d t hd ht
    simp [get_exptime, hd, ht]
  · intro hnone
    rcases hd : lookupKey m "DATE-OBS" with _ | d <;>
      rcases ht : lookupKey m "TIME-OBS" with _ | t
    case some.some =>
      rw [hd, ht] at hnone
      rcases hnone with hc | hc <;> simp at hc
    all_goals
      refine ⟨fun v hv => ?_, fun hm1 => ⟨fun v hv => ?_, fun hm2 => ?_⟩⟩ <;>
        simp [get_exptime, hd, ht, *]

/-- C10 witness: the biasfile match path of the module docstring, where
both DATE-OBS and TIME-OBS are present. -/
theorem get_exptime_spec_witness :
    lookupKey [("DATE-OBS", "2006-07-04"), ("TIME-OBS", "11:32:35")] "DATE-OBS" =
      some "2006-07-04" ∧
    lookupKey [("DATE-OBS", "2006-07-04"), ("TIME-OBS", "11:32:35")] "TIME-OBS" =
      some "11:32:35" ∧
    get_exptime [("DATE-OBS", "2006-07-04"), ("TIME-OBS", "11:32:35")] =
      "2006-07-04" ++ " " ++ "11:32:35" :=
  ⟨by decide, by decide,
   (get_exptime_spec _).1 "2006-07-04" "11:32:35" (by decide) (by decide)⟩

/-- C3: validator construction is fail-fast — a constraint spec whose
value expression or presence condition uses a lone equals sign where a
double equals was intended is rejected at construction with a syntax
error; construction takes no header, so no header is ever examined and
no check is reached for such a spec. -/
theorem validator_syntax_failfast :
    validator ⟨"DETECTOR", "X", "X", "R",
        ["((DETECTOR=\"FOO\")and(SUBARRAY==\"BAR\"))"]⟩ =
      Except.error CertifyError.syntaxErr ∧
    validator ⟨"DETECTOR", "X", "X", "(SUBARRAY=\"BAR\")",
        ["FOO", "BAR", "BAZ"]⟩ = Except.error CertifyError.syntaxErr ∧
    (∀ info : TpnInfo, isExprText info.presence = true →
      hasLoneEq info.presence = true →
      validator info = Except.error CertifyError.syntaxErr) ∧
    (∀ (info : TpnInfo) (e : String),
      (isExprText info.presence = true ∨
        presenceCodes.contains info.presence = true) →
      info.datatype = "X" → info.values = [e] → hasLoneEq e = true →
      validator info = Except.error CertifyError.syntaxErr) := by
  refine ⟨rfl, rfl, ?_, ?_⟩
  · intro info h1 h2
    simp [validator, h1, h2]
  · intro info e hp hdt hv he
    cases hx : isExprText info.presence
    · rcases hp with hp | hp
      · rw [hx] at hp; cases hp
      · simp [validator, hx, hp, checkValues, hdt, hv, he]
        simpa using hp
    · cases hq : hasLoneEq info.presence
      · simp [validator, hx, hq, checkValues, hdt, hv, he]
      · simp [validator, hx, hq]

/-- C3 witness: the two bad-format specs of the shipped tests — the
expression constraint and the conditional presence, each using a lone
equals sign. -/
theorem validator_syntax_failfast_witness :
    isExprText "(SUBARRAY=\"BAR\")" = true ∧
    hasLoneEq "(SUBARRAY=\"BAR\")" = true ∧
    validator ⟨"DETECTOR", "H", "C", "(SUBARRAY=\"BAR\")",
      ["FOO", "BAR", "BAZ"]⟩ = Except.error CertifyError.syntaxErr :=
  ⟨by decide, by decide,
   validator_syntax_failfast.2.2.1
     ⟨"DETECTOR", "H", "C", "(SUBARRAY=\"BAR\")", ["FOO", "BAR", "BAZ"]⟩
     (by decide) (by decide)⟩

/-- C4 counterexample: the claim says an INFLIGHT pedigree requires two
dates, but the engine (pinned by the shipped inflight-no-date test)
accepts the bare value INFLIGHT with no dates at all. -/
theorem pedigree_inflight_bare_counterexample : pedigreeCheck "INFLIGHT" = true := by
  decide

/-- C4 amended: a Pedigree value is an allowed keyword alone (INFLIGHT
with no dates is accepted) or a keyword with exactly two dates,
optionally separated by a literal dash token; when dates are present
both must parse in the same format (dd/mm/yyyy or yyyy-mm-dd) with
start not after end; mixed formats, start after end, and trailing
tokens after the second date all fail. -/
theorem pedigree_grammar_amended :
    pedigreeCheck "INFLIGHT" = true ∧
    pedigreeCheck "INFLIGHT 02/01/2017 03/01/2017" = true ∧
    pedigreeCheck "INFLIGHT 2017-01-01 2017-01-02" = true ∧
    pedigreeCheck "INFLIGHT 2017-01-01 - 2017-01-02" = true ∧
    pedigreeCheck "INFLIGHT 2017-01-02 2017-01-01" = false ∧
    pedigreeCheck "INFLIGHT 2017-01-01 - 2017-01-02 -" = false ∧
    pedigreeCheck "INFLIGHT 02/01/2017 2017-01-02" = false ∧
    pedigreeCheck "INFLIGHT 2017-01-01 - 2017/01/02" = false ∧
    (∀ s e : String, pedigreeCheckTokens ["INFLIGHT", s, e] = sameFormatLE s e) ∧
    (∀ s e : String,
      pedigreeCheckTokens ["INFLIGHT", s, "-", e] = sameFormatLE s e) ∧
    (∀ (a s d e t : String) (rest : List String),
      pedigreeCheckTokens (a :: s :: d :: e :: t :: rest) = false) ∧
    (∀ s e : String, sameFormatLE s e = true ↔
      ((∃ d1 d2, parseSlashDate s = some d1 ∧ parseSlashDate e = some d2 ∧
          dateLE d1 d2 = true) ∨
       (∃ d1 d2, parseDashDate s = some d1 ∧ parseDashDate e = some d2 ∧
          dateLE d1 d2 = true))) := by
  refine ⟨by decide, by decide, by decide, by decide, by decide, by decide,
    by decide, by decide, ?_, ?_, ?_, ?_⟩
  · intro s e
    simp [pedigreeCheckTokens, pedigreeKeywords]
  · intro s e
    simp [pedigreeCheckTokens, pedigreeKeywords]
  · intro a s d e t rest
    rfl
  · intro s e
    unfold sameFormatLE
    rcases h1 : parseSlashDate s with _ | d1 <;>
      rcases h2 : parseSlashDate e with _ | d2 <;>
        rcases h3 : parseDashDate s with _ | d3 <;>
          rcases h4 : parseDashDate e with _ | d4 <;>
            simp [h1, h2, h3, h4]

theorem errorCount_append (a b : List Diag) :
    errorCount (a ++ b) = errorCount a + errorCount b := by
  simp [errorCount, List.filter_append]

theorem errorCount_eq_zero (ds : List Diag) :
    errorCount ds = 0 ↔ ∀ d ∈ ds, d.sev ≠ Severity.error := by
  simp [errorCount, List.length_eq_zero, List.filter_eq_nil_iff]

theorem errorCount_map_warning {α : Type} (f : α → Diag)
    (hf : ∀ x, (f x).sev = Severity.warning) (l : List α) :
    errorCount (l.map f) = 0 := by
  rw [errorCount_eq_zero]
  intro d hd
  rcases List.mem_map.1 hd with ⟨x, _, rfl⟩
  rw [hf x]
  intro hcontra
  cases hcontra

theorem modeIndicesFrom_mem :
    ∀ (l : List Mode) (start : Nat) (m : Mode),
      modeIndicesFrom start l m ≠ [] → m ∈ l := by
  intro l
  induction l with
  | nil =>
    intro start m hne
    simp [modeIndicesFrom] at hne
  | cons x rest ih =>
    intro start m hne
    by_cases hx : x = m
    · exact hx ▸ List.mem_cons_self x rest
    · have hrest : modeIndicesFrom (start + 1) rest m ≠ [] := by
        simpa [modeIndicesFrom, hx] using hne
      exact List.mem_cons_of_mem x (ih (start + 1) m hrest)

theorem dupEntry_key (modes : List Mode) (x : Mode) (p : Mode × List Nat)
    (h : dupEntry modes x = some p) :
    p.1 = x ∧ p.2 = modeIndicesFrom 0 modes x ∧
      2 ≤ (modeIndicesFrom 0 modes x).length := by
  by_cases h2 : 2 ≤ (modeIndicesFrom 0 modes x).length
  · rw [dupEntry, if_pos h2] at h
    cases h
    exact ⟨rfl, rfl, h2⟩
  · rw [dupEntry, if_neg h2] at h
    cases h

theorem not_mem_filterMap_dupEntry (modes : List Mode) (l : List Mode)
    (m : Mode) (v : List Nat) (hm : m ∉ l) :
    (m, v) ∉ l.filterMap (dupEntry modes) := by
  intro hmem
  rcases List.mem_filterMap.1 hmem with ⟨x, hx, hfx⟩
  have hkey : m = x := (dupEntry_key modes x _ hfx).1
  subst hkey
  exact hm hx

theorem count_dupEntry_filterMap (modes : List Mode) :
    ∀ l : List Mode, l.Nodup → ∀ (m : Mode) (v : List Nat), m ∈ l →
      dupEntry modes m = some (m, v) →
      (l.filterMap (dupEntry modes)).count (m, v) = 1 := by
  intro l
  induction l with
  | nil =>
    intro _ m v hm
    cases hm
  | cons x rest ih =>
    intro hnd m v hm hf
    rcases List.nodup_cons.1 hnd with ⟨hxr, hndr⟩
    rcases List.mem_cons.1 hm with hxm | hmr
    · subst hxm
      rw [List.filterMap_cons_some hf, List.count_cons_self]
      have hzero : (rest.filterMap (dupEntry modes)).count (m, v) = 0 :=
        List.count_eq_zero.2 (not_mem_filterMap_dupEntry modes rest m v hxr)
      rw [hzero]
    · have hxm : x ≠ m := fun hcontra => hxr (hcontra ▸ hmr)
      cases hfx : dupEntry modes x with
      | none =>
        rw [List.filterMap_cons_none hfx]
        exact ih hndr m v hmr hf
      | some p =>
        rw [List.filterMap_cons_some hfx]
        have hpx : p.1 = x := (dupEntry_key modes x p hfx).1
        have hne : (m, v) ≠ p := by
          intro hcontra
          exact hxm (by rw [← hpx, ← hcontra])
        rw [List.count_cons_of_ne hne]
        exact ih hndr m v hmr hf

/-- C6: the table-mode comparison reports only warnings (the error count
is unchanged); a mode occurring at two or more row indices of the old
extension yields exactly one duplicate-definition entry carrying all of
its row indices, independently of the new file; a mode of the old
extension is reported dropped exactly when it is absent from the new
extension; a mode present only in the new file is never reported. -/
theorem table_mode_comparison_spec :
    (∀ (oldName : String) (ext : Nat) (oldModes newModes : List Mode),
      errorCount (tableCompareDiags oldName ext oldModes newModes) = 0) ∧
    (∀ (modes : List Mode) (m : Mode),
      2 ≤ (modeIndicesFrom 0 modes m).length →
      (duplicateWarnings modes).count (m, modeIndicesFrom 0 modes m) = 1) ∧
    (∀ (modes : List Mode) (m : Mode),
      (modeIndicesFrom 0 modes m).length ≤ 1 →
      ∀ v : List Nat, (m, v) ∉ duplicateWarnings modes) ∧
    (∀ (oldModes newModes : List Mode) (m : Mode),
      m ∈ droppedModes oldModes newModes ↔ m ∈ oldModes ∧ m ∉ newModes) ∧
    (∀ oldModes n1 n2 : List Mode,
      (tableCompare oldModes n1).dups = (tableCompare oldModes n2).dups) ∧
    (∀ (oldModes newModes : List Mode) (m : Mode), m ∉ oldModes →
      m ∉ droppedModes oldModes newModes ∧
        ∀ v : List Nat, (m, v) ∉ duplicateWarnings oldModes) := by
  refine ⟨?_, ?_, ?_, ?_, fun _ _ _ => rfl, ?_⟩
  · intro oldName ext oldModes newModes
    rw [tableCompareDiags, errorCount_append]
    rw [errorCount_map_warning _ (fun _ => rfl), errorCount_map_warning _ (fun _ => rfl)]
  · intro modes m h2
    have hne : modeIndicesFrom 0 modes m ≠ [] := by
      intro hcontra
      rw [hcontra] at h2
      exact absurd h2 (by decide)
    have hm : m ∈ modes := modeIndicesFrom_mem modes 0 m hne
    have hf : dupEntry modes m = some (m, modeIndicesFrom 0 modes m) := by
      rw [dupEntry, if_pos h2]
    exact count_dupEntry_filterMap modes modes.dedup (List.nodup_dedup modes)
      m _ (List.mem_dedup.2 hm) hf
  · intro modes m h1 v hmem
    rcases List.mem_filterMap.1 hmem with ⟨x, _, hfx⟩
    rcases dupEntry_key modes x _ hfx with ⟨hkey, _, h2⟩
    have hkey2 : m = x := hkey
    rw [← hkey2] at h2
    omega
  · intro oldModes newModes m
    simp [droppedModes, List.mem_filter, List.mem_dedup]
  · intro oldModes newModes m hm
    constructor
    · intro hmem
      rcases List.mem_filter.1 hmem with ⟨hmem2, _⟩
      exact hm (List.mem_dedup.1 hmem2)
    · intro v hmem
      rcases List.mem_filterMap.1 hmem with ⟨x, hx, hfx⟩
      have hkey : m = x := (dupEntry_key oldModes x _ hfx).1
      subst hkey
      exact hm (List.mem_dedup.1 hx)

/-- C6 witness: an extension whose first and third rows share one DATE
mode, as in the shipped comparison-reference test. -/
theorem table_mode_comparison_spec_witness :
    2 ≤ (modeIndicesFrom 0
        [[("DATE", "56924.04")], [("DATE", "56925.0")], [("DATE", "56924.04")]]
        [("DATE", "56924.04")]).length ∧
    (duplicateWarnings
        [[("DATE", "56924.04")], [("DATE", "56925.0")], [("DATE", "56924.04")]]).count
      ([("DATE", "56924.04")],
        modeIndicesFrom 0
          [[("DATE", "56924.04")], [("DATE", "56925.0")], [("DATE", "56924.04")]]
          [("DATE", "56924.04")]) = 1 :=
  ⟨by decide,
   table_mode_comparison_spec.2.1
     [[("DATE", "56924.04")], [("DATE", "56925.0")], [("DATE", "56924.04")]]
     [("DATE", "56924.04")] (by decide)⟩

/-- C7: on a rule file carrying both a duplicated selector key and a
stale checksum, the duplicate is one error naming both conflicting
result kinds and the checksum mismatch is one warning; in general the
checksum comparison contributes no errors, never suppresses the
duplicate errors, and every error of the certification comes from the
duplicate scan. -/
theorem mapping_duplicate_checksum_spec :
    certifyMapping tdsNode =
      [⟨Severity.error,
        "Duplicate entry at selector FUV SPECTROSCOPIC = UseAfter vs. UseAfter"⟩,
       ⟨Severity.warning, "Checksum error : sha1sum mismatch"⟩] ∧
    (∀ node : MappingNode,
      errorCount (certifyMapping node) = errorCount (duplicateErrors node.entries)) ∧
    (∀ node : MappingNode, ∀ d ∈ duplicateErrors node.entries,
      d ∈ certifyMapping node) ∧
    (∀ node : MappingNode, ∀ d ∈ certifyMapping node,
      d.sev = Severity.error → d ∈ duplicateErrors node.entries) := by
  refine ⟨by decide, ?_, ?_, ?_⟩
  · intro node
    obtain ⟨entries, sum⟩ := node
    rw [certifyMapping, errorCount_append]
    rcases sum with _ | s
    · rfl
    · by_cases hs : s = mappingChecksum entries
      · simp [hs, errorCount]
      · simp [hs, errorCount]
  · intro node d hd
    exact List.mem_append_left _ hd
  · intro node d hd hsev
    obtain ⟨entries, sum⟩ := node
    rcases sum with _ | s
    · simp only [certifyMapping, List.append_nil] at hd
      exact hd
    · simp only [certifyMapping] at hd
      rcases List.mem_append.1 hd with hin | hin
      · exact hin
      · exfalso
        by_cases hs : s = mappingChecksum entries
        · rw [if_pos hs] at hin
          cases hin
        · rw [if_neg hs] at hin
          have hdiag : d = ⟨Severity.warning, "Checksum error : sha1sum mismatch"⟩ :=
            List.mem_singleton.1 hin
          rw [hdiag] at hsev
          cases hsev

/-- C7 witness: the duplicate-entry diagnostic of the duplicated rule
file is produced by the duplicate scan and survives into the full
certification output despite the stale checksum. -/
theorem mapping_duplicate_checksum_spec_witness :
    (⟨Severity.error,
      "Duplicate entry at selector FUV SPECTROSCOPIC = UseAfter vs. UseAfter"⟩ : Diag) ∈
        duplicateErrors tdsNode.entries ∧
    (⟨Severity.error,
      "Duplicate entry at selector FUV SPECTROSCOPIC = UseAfter vs. UseAfter"⟩ : Diag) ∈
        certifyMapping tdsNode :=
  ⟨by decide,
   mapping_duplicate_checksum_spec.2.2.1 tdsNode _ (by decide)⟩

/-- C9: the interpreter always echoes every transcript line (with its
recategorized severity), the step fails as an error exactly when some
line recategorizes to an error — independent of the tool exit status,
which only yields an informational note; under the shipped policy a
checksum-mismatch line the tool labels a warning escalates to an error
and fails the step, while an unregistered-extension line the tool labels
an error demotes to informational and does not fail the step. -/
theorem interpret_fitsverify_spec :
    (∀ (policy : List RecatRule) (status : Nat) (lines : List String),
      ∀ l ∈ lines,
        Diag.mk (recatSeverity policy l) (">> " ++ l) ∈
          interpret_fitsverify_output policy status lines) ∧
    (∀ (policy : List RecatRule) (status : Nat) (lines : List String),
      errorCount (interpret_fitsverify_output policy status lines) = 0 ↔
        fvStepFails policy lines = false) ∧
    (∀ (policy : List RecatRule) (lines : List String),
      fvStepFails policy lines = true ↔
        ∃ l ∈ lines, recatSeverity policy l = Severity.error) ∧
    (baseSeverity escLine = Severity.warning ∧
      recatSeverity fitsverifyPolicy escLine = Severity.error ∧
      fvStepFails fitsverifyPolicy [escLine] = true) ∧
    (baseSeverity demLine = Severity.error ∧
      recatSeverity fitsverifyPolicy demLine = Severity.info ∧
      fvStepFails fitsverifyPolicy [demLine] = false) := by
  refine ⟨?_, ?_, ?_, ⟨by decide, by decide, by decide⟩,
    ⟨by decide, by decide, by decide⟩⟩
  · intro policy status lines l hl
    exact List.mem_append_left _ (List.mem_append_left _
      (List.mem_map.2 ⟨l, hl, rfl⟩))
  · intro policy status lines
    rw [errorCount_eq_zero]
    constructor
    · intro hall
      cases hfv : fvStepFails policy lines
      · rfl
      · exfalso
        have hv : fvVerdictDiag ∈ interpret_fitsverify_output policy status lines := by
          rw [interpret_fitsverify_output, hfv]
          exact List.mem_append_right _ (List.mem_singleton.2 rfl)
        exact hall _ hv rfl
    · intro hfalse d hd
      have hforall : ∀ l ∈ lines, ¬recatSeverity policy l = Severity.error := by
        have := hfalse
        rw [fvStepFails] at this
        intro l hl
        have hx := List.any_eq_false.1 this l hl
        simpa using hx
      rw [interpret_fitsverify_output, hfalse] at hd
      rcases List.mem_append.1 hd with hin | hin
      · rcases List.mem_append.1 hin with hmap | hstat
        · rcases List.mem_map.1 hmap with ⟨l, hl, rfl⟩
          exact hforall l hl
        · rcases hst : decide (status ≠ 0) with _ | _
          · rw [if_neg (of_decide_eq_false hst)] at hstat
            cases hstat
          · rw [if_pos (of_decide_eq_true hst)] at hstat
            have hdiag : d = fvStatusDiag := List.mem_singleton.1 hstat
            rw [hdiag]
            intro hcontra
            cases hcontra
      · cases hin
  · intro policy lines
    rw [fvStepFails]
    simp [List.any_eq_true]

/-- C9 witness: the escalated checksum-mismatch line of the shipped
bad-checksum transcript is echoed into the interpreter output with its
recategorized (error) severity. -/
theorem interpret_fitsverify_spec_witness :
    escLine ∈ [escLine] ∧
    Diag.mk (recatSeverity fitsverifyPolicy escLine) (">> " ++ escLine) ∈
      interpret_fitsverify_output fitsverifyPolicy 1 [escLine] :=
  ⟨List.mem_singleton.2 rfl,
   interpret_fitsverify_spec.1 fitsverifyPolicy 1 [escLine] escLine
     (List.mem_singleton.2 rfl)⟩
